import Mathlib

/-!
Verification development for the soil-moisture simulation
(`src/app/layout.tsx`, `src/app/setup/page.tsx`, `src/contexts/SettingsContext.tsx`).

The simulation component keeps a grid of cells, each `{ moisture, tapStatus,
overrideTap }`, and a tick counter `timeStep`.  `updateGrid` performs one tick:
for each cell, in row-major order, it recomputes the tap from the moisture
threshold (unless overridden), applies irrigation or evapotranspiration,
accumulates a diffusion delta from the orthogonal neighbors and clamps the
result to `[0,1]`, then increments `timeStep`.

Faithfulness note on the update order: the source builds
`newGrid = prevGrid.map(row => [...row])`, a copy of the row arrays only —
the cell objects themselves are shared between `prevGrid` and `newGrid`.
Every write in the loop is a property mutation of such a shared cell object
(`newGrid[i][j].moisture = ...`), so a read through `prevGrid` of a cell the
loop already processed observes the updated value, and the read of
`prevGrid[i][j].moisture` inside the diffusion sum observes the moisture the
local-flux write just stored.  The embedding therefore threads one grid
through a row-major fold and performs the writes at the same program points
as the source.  Row lengths are invariant under the loop, so taking the loop
bounds from the initial grid matches the source's re-reads of `length`.

Moisture values are embedded as exact rationals (`ℚ`).
-/

namespace SoilSim

/-- One grid location: `interface Cell` of `layout.tsx`. -/
structure Cell where
  moisture : ℚ
  tapStatus : Bool
  overrideTap : Bool
  deriving Repr, DecidableEq

/-- The tunables: `interface SimulationParams` of `layout.tsx`. -/
structure SimulationParams where
  diffusionCoefficient : ℚ
  evapotranspirationRate : ℚ
  irrigationRate : ℚ
  moistureThreshold : ℚ
  deriving Repr, DecidableEq

/-- The grid: `Cell[][]`. -/
abbrev Grid := List (List Cell)

/-- `grid[i]?.[j]?`: JavaScript indexing returns `undefined` out of bounds. -/
def cellAt (g : Grid) (i j : Nat) : Option Cell :=
  g[i]?.bind (fun row => row[j]?)

/-- Property assignment `grid[i][j] = c`; a no-op out of bounds (the source
only ever writes in-bounds positions). -/
def setCell (g : Grid) (i j : Nat) (c : Cell) : Grid :=
  match g[i]? with
  | none => g
  | some row => g.set i (row.set j c)

/-- The neighbor gather of `updateGrid`:
`[prevGrid[i-1]?.[j], prevGrid[i+1]?.[j], prevGrid[i][j-1], prevGrid[i][j+1]].filter(Boolean)`.
In JavaScript `prevGrid[i][-1]` is `undefined`, hence the `i = 0` / `j = 0`
guards (Nat subtraction would wrap to `0` instead). -/
def neighborList (g : Grid) (i j : Nat) : List Cell :=
  List.filterMap id
    [ if i = 0 then none else cellAt g (i - 1) j,
      cellAt g (i + 1) j,
      if j = 0 then none else cellAt g i (j - 1),
      cellAt g i (j + 1) ]

/-- `Math.max(0, Math.min(1, v))` — the clamp at the end of the cell update. -/
def clampMoisture (v : ℚ) : ℚ := max 0 (min 1 v)

/-- The body of the double loop of `updateGrid` for one position `(i, j)`:
tap decision, local flux, diffusion from the (partially updated, see the
faithfulness note) grid, clamp. -/
def updateCell (p : SimulationParams) (dt : ℚ) (g : Grid) (ij : Nat × Nat) : Grid :=
  match cellAt g ij.1 ij.2 with
  | none => g
  | some c =>
    let tap : Bool := if c.overrideTap then c.tapStatus
      else decide (c.moisture < p.moistureThreshold)
    let m1 : ℚ := if tap then c.moisture + p.irrigationRate * dt
      else c.moisture - p.evapotranspirationRate * dt
    let g1 : Grid := setCell g ij.1 ij.2 { c with tapStatus := tap, moisture := m1 }
    let delta : ℚ := (neighborList g1 ij.1 ij.2).foldl
      (fun acc n => acc + p.diffusionCoefficient * (n.moisture - m1)) 0
    setCell g1 ij.1 ij.2
      { c with tapStatus := tap, moisture := clampMoisture (m1 + delta * dt) }

/-- The row-major iteration order of the double loop of `updateGrid`. -/
def rowMajorIndices (g : Grid) : List (Nat × Nat) :=
  (List.range g.length).flatMap
    (fun i => (List.range (g[i]?.getD []).length).map (fun j => (i, j)))

/-- The grid part of `updateGrid`: the double loop over all cells. -/
def updateGridCells (p : SimulationParams) (dt : ℚ) (g : Grid) : Grid :=
  (rowMajorIndices g).foldl (updateCell p dt) g

/-- The component state the engine owns: the grid and the tick counter. -/
structure SimState where
  grid : Grid
  timeStep : Nat
  deriving Repr, DecidableEq

/-- `updateGrid`: one tick — update every cell, then `setTimeStep(prev => prev + 1)`. -/
def updateGrid (p : SimulationParams) (dt : ℚ) (s : SimState) : SimState :=
  { grid := updateGridCells p dt s.grid, timeStep := s.timeStep + 1 }

/-- A freshly created cell of `initializeGrid`:
`{ moisture, tapStatus: false, overrideTap: false }`. -/
def mkCell (m : ℚ) : Cell := { moisture := m, tapStatus := false, overrideTap := false }

/-- `initializeGrid` in its `uniform` branch:
`Array(rows).fill(null).map(() => Array(cols).fill(null).map(() => ({...})))`
with `uniformMoisture = parseFloat(...)/100`.  The function performs no
validation of `rows`, `cols` or the moisture percentage. -/
def initializeGrid (rows cols : Nat) (uniformMoisturePercent : ℚ) : Grid :=
  (List.replicate rows ()).map (fun _ =>
    (List.replicate cols ()).map (fun _ => mkCell (uniformMoisturePercent / 100)))

/-- The `manualMoisture` input handler: writes
`moisture: Math.min(1, Math.max(0, newMoisture)), overrideTap: true` at the
selected cell (`newMoisture` is the unit-converted input value). -/
def setCellMoisture (g : Grid) (i j : Nat) (v : ℚ) : Grid :=
  match cellAt g i j with
  | none => g
  | some c => setCell g i j { c with moisture := min 1 (max 0 v), overrideTap := true }

/-- The "Toggle Tap" button handler: flips `tapStatus`, sets `overrideTap: true`. -/
def toggleTap (g : Grid) (i j : Nat) : Grid :=
  match cellAt g i j with
  | none => g
  | some c => setCell g i j { c with tapStatus := !c.tapStatus, overrideTap := true }

/-- The "Reset Tap Control" button handler: sets `overrideTap: false` only. -/
def clearOverride (g : Grid) (i j : Nat) : Grid :=
  match cellAt g i j with
  | none => g
  | some c => setCell g i j { c with overrideTap := false }

/-- The operations an external driver can interleave between observations. -/
inductive SimOp where
  | step (p : SimulationParams) (dt : ℚ)
  | setMoisture (i j : Nat) (v : ℚ)
  | toggle (i j : Nat)
  | clear (i j : Nat)

/-- Apply one driver operation to the component state. -/
def applyOp (s : SimState) : SimOp → SimState
  | .step p dt => updateGrid p dt s
  | .setMoisture i j v => { s with grid := setCellMoisture s.grid i j v }
  | .toggle i j => { s with grid := toggleTap s.grid i j }
  | .clear i j => { s with grid := clearOverride s.grid i j }

/-- Apply a finite sequence of driver operations. -/
def applyOps (s : SimState) (ops : List SimOp) : SimState := ops.foldl applyOp s

/-- Every cell's moisture lies in `[0, 1]`. -/
def moistureInRange (g : Grid) : Prop :=
  ∀ row ∈ g, ∀ c ∈ row, 0 ≤ c.moisture ∧ c.moisture ≤ 1

instance (g : Grid) : Decidable (moistureInRange g) := by
  unfold moistureInRange; infer_instance

/-- A sequence of ticks with possibly different parameter settings per tick. -/
def runSteps (s : SimState) (ps : List (SimulationParams × ℚ)) : SimState :=
  ps.foldl (fun t pq => updateGrid pq.1 pq.2 t) s

/-- One `{ time, moisture }` entry of the `moistureHistory` state. -/
structure MoistureSample where
  time : Nat
  moisture : ℚ
  deriving Repr, DecidableEq

/-- The last `k` elements of a list — JavaScript's `slice(-k)`. -/
def lastN (k : Nat) (l : List α) : List α := l.drop (l.length - k)

/-- The history effect body: `[...prev, { time, moisture }].slice(-20)`. -/
def recordSample (h : List MoistureSample) (t : Nat) (m : ℚ) : List MoistureSample :=
  lastN 20 (h ++ [⟨t, m⟩])

/-- `grid[row][col].moisture` (the effect only runs with the cell in bounds). -/
def moistureAt (g : Grid) (i j : Nat) : ℚ :=
  ((cellAt g i j).getD (mkCell 0)).moisture

/-- The observer layer: the selected cell and the accumulated history. -/
structure ObserverState where
  selected : Option (Nat × Nat)
  history : List MoistureSample
  deriving Repr, DecidableEq

/-- `handleCellClick` plus the history effect it triggers: select `(i, j)` and
append the new selection's sample — the existing history is kept as-is. -/
def handleCellClick (os : ObserverState) (g : Grid) (t : Nat) (i j : Nat) : ObserverState :=
  { selected := some (i, j), history := recordSample os.history t (moistureAt g i j) }

/-- `n` ticks while cell `(i, j)` is observed: each tick runs `updateGrid` and
then the history effect samples the observed cell at the new tick. -/
def observeSteps (p : SimulationParams) (dt : ℚ) (i j : Nat) :
    Nat → SimState → List MoistureSample → SimState × List MoistureSample
  | 0, s, h => (s, h)
  | n + 1, s, h =>
    let s' := updateGrid p dt s
    observeSteps p dt i j n s' (recordSample h s'.timeStep (moistureAt s'.grid i j))

/-- The full (unbounded) sample sequence the observation of `(i, j)` generates
over `n` ticks: one `{ time, moisture }` pair per completed tick. -/
def sampleTrace (p : SimulationParams) (dt : ℚ) (i j : Nat) :
    Nat → SimState → List MoistureSample
  | 0, _ => []
  | n + 1, s =>
    let s' := updateGrid p dt s
    ⟨s'.timeStep, moistureAt s'.grid i j⟩ :: sampleTrace p dt i j n s'

end SoilSim

namespace SoilSim

/-- C1: the claim says one `step()` on a 2-cell grid with unequal moistures and
irrigation, evapotranspiration and threshold all zero changes the two cells by
exactly opposite amounts computed from the same pre-tick snapshot.  The code
violates this: `newGrid = prevGrid.map(row => [...row])` copies only the row
arrays, the cell objects are shared, so when the second cell gathers its
neighbors it reads the first cell's already-updated moisture.  At the failing
input (1×2 grid with moistures 0 and 1, `diffusionCoefficient = 1/10`,
`Δt = 1`), cell A moves by `1/10 = D×(1 − 0)` but cell B moves by
`-9/100 = D×(1/10 − 1)`, which is not the claimed `-1/10`, so
`delta_A ≠ -delta_B`. -/
theorem c1_snapshot_bug_at_failing_input :
    updateGridCells ⟨1/10, 0, 0, 0⟩ 1 [[mkCell 0, mkCell 1]] =
      [[⟨1/10, false, false⟩, ⟨91/100, false, false⟩]] ∧
    moistureAt (updateGridCells ⟨1/10, 0, 0, 0⟩ 1 [[mkCell 0, mkCell 1]]) 0 0
      - moistureAt [[mkCell 0, mkCell 1]] 0 0 = 1/10 ∧
    moistureAt (updateGridCells ⟨1/10, 0, 0, 0⟩ 1 [[mkCell 0, mkCell 1]]) 0 1
      - moistureAt [[mkCell 0, mkCell 1]] 0 1 = -(9/100) ∧
    moistureAt (updateGridCells ⟨1/10, 0, 0, 0⟩ 1 [[mkCell 0, mkCell 1]]) 0 0
      - moistureAt [[mkCell 0, mkCell 1]] 0 0 ≠
    -(moistureAt (updateGridCells ⟨1/10, 0, 0, 0⟩ 1 [[mkCell 0, mkCell 1]]) 0 1
      - moistureAt [[mkCell 0, mkCell 1]] 0 1) := by
  norm_num [updateGridCells, rowMajorIndices, updateCell, cellAt, setCell, neighborList,
    clampMoisture, mkCell, moistureAt, List.flatMap, List.range_succ, List.filterMap_cons,
    min_def, max_def]

/-- C9: on a 1×1 grid with moisture `1/2`, threshold `3/5`, irrigation `1/10`,
evapotranspiration `1/20`, diffusion `0` and `Δt = 1`, the first `step()` turns
the tap on and yields moisture `3/5`, and the second turns it off and yields
`11/20`, in exact arithmetic. -/
theorem c9_single_cell_two_step_scenario :
    updateGrid ⟨0, 1/20, 1/10, 3/5⟩ 1 ⟨[[mkCell (1/2)]], 0⟩ =
      ⟨[[⟨3/5, true, false⟩]], 1⟩ ∧
    updateGrid ⟨0, 1/20, 1/10, 3/5⟩ 1 ⟨[[⟨3/5, true, false⟩]], 1⟩ =
      ⟨[[⟨11/20, false, false⟩]], 2⟩ := by
  constructor <;>
  norm_num [updateGrid, updateGridCells, rowMajorIndices, updateCell, cellAt, setCell,
    neighborList, clampMoisture, mkCell, List.flatMap, List.range_succ, List.filterMap_cons,
    min_def, max_def]

/-- C3 (counterexample): grid creation never fails.  With `rows = 0` (< 1) it
returns an empty grid instead of an `InvalidDimension` error, and with a
uniform seed of 150 % (moisture `3/2`, outside `[0,1]`) it stores the
out-of-range moisture instead of raising `InvalidMoisture`. -/
theorem c3_no_validation_counterexample :
    initializeGrid 0 5 50 = [] ∧ initializeGrid 1 1 150 = [[mkCell (3/2)]] := by
  constructor <;> norm_num [initializeGrid, mkCell, List.replicate_succ]

/-- C3 (amended): `initializeGrid` performs no validation: for every `rows`,
`cols` and uniform percentage it returns a `rows × cols` grid all of whose
cells are `{ moisture := pct/100, tapStatus := false, overrideTap := false }`
(including `rows = 0`, which yields an empty grid, and percentages outside
`[0,100]`, which are seeded unclamped). -/
theorem c3_initializeGrid_unvalidated_shape (rows cols : Nat) (pct : ℚ) :
    (initializeGrid rows cols pct).length = rows ∧
    ∀ row ∈ initializeGrid rows cols pct, row.length = cols ∧
      ∀ c ∈ row, c = mkCell (pct / 100) := by
  refine ⟨by simp [initializeGrid], ?_⟩
  intro row hrow
  simp only [initializeGrid, List.mem_map] at hrow
  obtain ⟨u, -, rfl⟩ := hrow
  refine ⟨by simp, ?_⟩
  intro c hc
  simp only [List.mem_map] at hc
  obtain ⟨v, -, rfl⟩ := hc
  rfl

/-- Witness for `c3_initializeGrid_unvalidated_shape` at `rows = 2`,
`cols = 3`, `pct = 50`. -/
theorem c3_initializeGrid_unvalidated_shape_witness :
    (initializeGrid 2 3 50).length = 2 ∧
    ((initializeGrid 2 3 50).headI.length = 3 ∧
      ∀ c ∈ (initializeGrid 2 3 50).headI, c = mkCell (50 / 100)) :=
  ⟨(c3_initializeGrid_unvalidated_shape 2 3 50).1,
   (c3_initializeGrid_unvalidated_shape 2 3 50).2 _
     (by norm_num [initializeGrid, List.replicate_succ, List.headI])⟩

/-- C4 (counterexample): `step()` called before the grid effect has populated
the grid (grid `[]`, tick 0) does not fail with `UninitializedGrid` — it
returns normally with the grid still empty — and it *does* advance the tick
counter to 1, contradicting "a failed step does not advance the tick counter". -/
theorem c4_counterexample_step_before_initialize :
    updateGrid ⟨1/10, 1/50, 1/20, 1/5⟩ 1 ⟨[], 0⟩ = ⟨[], 1⟩ ∧
    (updateGrid ⟨1/10, 1/50, 1/20, 1/5⟩ 1 ⟨[], 0⟩).timeStep ≠ 0 := by
  exact ⟨rfl, by simp [updateGrid]⟩

/-- C4 (amended): `step()` has no failure mode at all: invoked on an
uninitialized (empty) grid with any parameters it performs no cell update,
leaves the grid empty, and still advances the tick counter by exactly 1. -/
theorem c4_step_on_uninitialized_grid (p : SimulationParams) (dt : ℚ) (t : Nat) :
    updateGrid p dt ⟨[], t⟩ = ⟨[], t + 1⟩ := rfl

/-- C7 (counterexample): switching the observed cell does not clear the
accumulated history.  Observing cell `(0,0)` of a 1×2 grid at tick 7 records
`⟨7, 1/4⟩`; switching to cell `(0,1)` leaves that sample of the previous
selection in the history (only `resetSimulation` clears `moistureHistory`). -/
theorem c7_counterexample_history_survives_switch :
    (handleCellClick (handleCellClick ⟨none, []⟩ [[mkCell (1/4), mkCell (3/4)]] 7 0 0)
        [[mkCell (1/4), mkCell (3/4)]] 7 0 1).history = [⟨7, 1/4⟩, ⟨7, 3/4⟩] ∧
    (⟨7, 1/4⟩ : MoistureSample) ∈
      (handleCellClick (handleCellClick ⟨none, []⟩ [[mkCell (1/4), mkCell (3/4)]] 7 0 0)
        [[mkCell (1/4), mkCell (3/4)]] 7 0 1).history := by
  constructor <;>
  norm_num [handleCellClick, recordSample, lastN, moistureAt, cellAt, mkCell]

/-- C7 (amended): switching the observed cell keeps all previously accumulated
samples: as long as fewer than 20 samples are stored, the new history is
exactly the old history with the new selection's `{tick, moisture}` sample
appended, and the selection is updated. -/
theorem c7_switch_appends_and_keeps_history (os : ObserverState) (g : Grid) (t i j : Nat)
    (h : os.history.length ≤ 19) :
    (handleCellClick os g t i j).history = os.history ++ [⟨t, moistureAt g i j⟩] ∧
    (handleCellClick os g t i j).selected = some (i, j) := by
  refine ⟨?_, rfl⟩
  have h0 : os.history.length - 19 = 0 := by omega
  simp [handleCellClick, recordSample, lastN, h0]

/-- Witness for `c7_switch_appends_and_keeps_history` on an empty history. -/
theorem c7_switch_appends_and_keeps_history_witness :
    ([] : List MoistureSample).length ≤ 19 ∧
    (handleCellClick ⟨none, []⟩ [[mkCell 0]] 0 0 0).history =
      [] ++ [⟨0, moistureAt [[mkCell 0]] 0 0⟩] :=
  ⟨by decide, (c7_switch_appends_and_keeps_history ⟨none, []⟩ [[mkCell 0]] 0 0 0 (by decide)).1⟩

end SoilSim

namespace SoilSim

theorem clampMoisture_nonneg (v : ℚ) : 0 ≤ clampMoisture v := le_max_left 0 _

theorem clampMoisture_le_one (v : ℚ) : clampMoisture v ≤ 1 :=
  max_le (by norm_num) (min_le_left 1 v)

theorem length_setCell (g : Grid) (i j : Nat) (c : Cell) :
    (setCell g i j c).length = g.length := by
  unfold setCell; split <;> simp

theorem getElem?_setCell_map_length (g : Grid) (i j k : Nat) (c : Cell) :
    (setCell g i j c)[k]?.map List.length = g[k]?.map List.length := by
  unfold setCell
  split
  · rfl
  · rename_i row hrow
    by_cases hik : i = k
    · subst hik
      have hi : i < g.length := (List.getElem?_eq_some.mp hrow).1
      rw [List.getElem?_set_eq_of_lt _ hi, hrow]
      simp
    · rw [List.getElem?_set_ne hik]

theorem cellAt_setCell_self (g : Grid) (i j : Nat) (c c0 : Cell)
    (h : cellAt g i j = some c0) :
    cellAt (setCell g i j c) i j = some c := by
  unfold cellAt at h ⊢
  unfold setCell
  cases hg : g[i]? with
  | none => rw [hg] at h; simp at h
  | some row =>
    rw [hg] at h
    simp only [Option.some_bind] at h
    have hi : i < g.length := (List.getElem?_eq_some.mp hg).1
    have hj : j < row.length := (List.getElem?_eq_some.mp h).1
    simp only [hg, List.getElem?_set_eq_of_lt _ hi, Option.some_bind]
    exact List.getElem?_set_eq_of_lt _ hj

theorem cellAt_setCell_ne (g : Grid) (i j i' j' : Nat) (c : Cell)
    (hne : ¬(i = i' ∧ j = j')) :
    cellAt (setCell g i j c) i' j' = cellAt g i' j' := by
  unfold cellAt setCell
  cases hg : g[i]? with
  | none => rfl
  | some row =>
    by_cases hii : i = i'
    · subst hii
      have hjj : j ≠ j' := fun hj => hne ⟨rfl, hj⟩
      have hi : i < g.length := (List.getElem?_eq_some.mp hg).1
      rw [List.getElem?_set_eq_of_lt _ hi, hg]
      simp [List.getElem?_set_ne hjj]
    · rw [List.getElem?_set_ne hii]

theorem setCell_setCell (g : Grid) (i j : Nat) (c1 c2 : Cell) :
    setCell (setCell g i j c1) i j c2 = setCell g i j c2 := by
  unfold setCell
  cases hg : g[i]? with
  | none => simp [hg]
  | some row =>
    have hi : i < g.length := (List.getElem?_eq_some.mp hg).1
    simp only [hg, List.getElem?_set_eq_of_lt _ hi, List.set_set]

theorem mem_of_cellAt (g : Grid) (i j : Nat) (c : Cell) (h : cellAt g i j = some c) :
    ∃ row ∈ g, c ∈ row := by
  unfold cellAt at h
  cases hg : g[i]? with
  | none => rw [hg] at h; simp at h
  | some row =>
    rw [hg] at h
    simp only [Option.some_bind] at h
    obtain ⟨hi, hrow⟩ := List.getElem?_eq_some.mp hg
    obtain ⟨hj, hc⟩ := List.getElem?_eq_some.mp h
    exact ⟨row, hrow ▸ List.getElem_mem hi, hc ▸ List.getElem_mem hj⟩

end SoilSim

namespace SoilSim

/-- Frame relation between a pre-tick grid and a grid reached during/after the
tick: same shape, every cell keeps its `overrideTap` flag, and an overridden
cell keeps its `tapStatus`. -/
def StepFrame (g g' : Grid) : Prop :=
  g'.length = g.length ∧
  (∀ k : Nat, g'[k]?.map List.length = g[k]?.map List.length) ∧
  ∀ i j c, cellAt g i j = some c →
    ∃ c', cellAt g' i j = some c' ∧ c'.overrideTap = c.overrideTap ∧
      (c.overrideTap = true → c'.tapStatus = c.tapStatus)

theorem StepFrame.refl (g : Grid) : StepFrame g g :=
  ⟨rfl, fun _ => rfl, fun _ _ c h => ⟨c, h, rfl, fun _ => rfl⟩⟩

theorem StepFrame.trans {g₁ g₂ g₃ : Grid} (h₁ : StepFrame g₁ g₂) (h₂ : StepFrame g₂ g₃) :
    StepFrame g₁ g₃ := by
  obtain ⟨hl₁, hr₁, hc₁⟩ := h₁
  obtain ⟨hl₂, hr₂, hc₂⟩ := h₂
  refine ⟨hl₂.trans hl₁, fun k => (hr₂ k).trans (hr₁ k), fun i j c h => ?_⟩
  obtain ⟨c', hc', ho', ht'⟩ := hc₁ i j c h
  obtain ⟨c'', hc'', ho'', ht''⟩ := hc₂ i j c' hc'
  refine ⟨c'', hc'', ho''.trans ho', fun hov => ?_⟩
  exact (ht'' (ho'.symm ▸ hov)).trans (ht' hov)

theorem stepFrame_setCell (g : Grid) (i j : Nat) (c₀ c : Cell)
    (h₀ : cellAt g i j = some c₀)
    (hov : c.overrideTap = c₀.overrideTap)
    (htap : c₀.overrideTap = true → c.tapStatus = c₀.tapStatus) :
    StepFrame g (setCell g i j c) := by
  refine ⟨length_setCell g i j c, fun k => getElem?_setCell_map_length g i j k c,
    fun i' j' c' h' => ?_⟩
  by_cases hij : i = i' ∧ j = j'
  · obtain ⟨rfl, rfl⟩ := hij
    rw [h₀] at h'
    obtain rfl : c₀ = c' := by injection h'
    exact ⟨c, cellAt_setCell_self g i j c c₀ h₀, hov, htap⟩
  · exact ⟨c', (cellAt_setCell_ne g i j i' j' c hij).trans h', rfl, fun _ => rfl⟩

theorem stepFrame_updateCell (p : SimulationParams) (dt : ℚ) (g : Grid) (ij : Nat × Nat) :
    StepFrame g (updateCell p dt g ij) := by
  cases hc : cellAt g ij.1 ij.2 with
  | none => simp only [updateCell, hc]; exact StepFrame.refl g
  | some c =>
    simp only [updateCell, hc]
    refine StepFrame.trans ?_ (stepFrame_setCell _ ij.1 ij.2 _ _
      (cellAt_setCell_self g ij.1 ij.2 _ c hc) rfl (fun _ => rfl))
    exact stepFrame_setCell g ij.1 ij.2 c _ hc rfl (fun hov => by simp [hov])

theorem stepFrame_foldl (p : SimulationParams) (dt : ℚ) (l : List (Nat × Nat)) (g : Grid) :
    StepFrame g (l.foldl (updateCell p dt) g) := by
  induction l generalizing g with
  | nil => exact StepFrame.refl g
  | cons ij l ih =>
    exact (stepFrame_updateCell p dt g ij).trans (ih (updateCell p dt g ij))

theorem stepFrame_updateGridCells (p : SimulationParams) (dt : ℚ) (g : Grid) :
    StepFrame g (updateGridCells p dt g) :=
  stepFrame_foldl p dt (rowMajorIndices g) g

theorem cellAt_eq_none_of_shape {g g' : Grid}
    (hrow : ∀ k : Nat, g'[k]?.map List.length = g[k]?.map List.length) (i j : Nat)
    (h : cellAt g i j = none) : cellAt g' i j = none := by
  unfold cellAt at h ⊢
  have hk := hrow i
  cases hg : g[i]? with
  | none =>
    rw [hg] at hk
    cases hg' : g'[i]? with
    | none => rfl
    | some row' => rw [hg'] at hk; simp at hk
  | some row =>
    rw [hg] at hk h
    simp only [Option.some_bind] at h
    cases hg' : g'[i]? with
    | none => rfl
    | some row' =>
      rw [hg'] at hk
      simp at hk
      simp only [Option.some_bind]
      rw [List.getElem?_eq_none_iff] at h ⊢
      omega

end SoilSim

namespace SoilSim

/-- C10: `step()` only rewrites `tapStatus` and `moisture`: for every grid
state and parameters, the post-step grid has the same number of rows, the same
length for every row, and every cell's `overrideTap` flag equals its pre-step
value (out-of-bounds positions stay out of bounds). -/
theorem c10_step_preserves_shape_and_override (p : SimulationParams) (dt : ℚ) (s : SimState) :
    (updateGrid p dt s).grid.length = s.grid.length ∧
    (∀ i : Nat, (updateGrid p dt s).grid[i]?.map List.length = s.grid[i]?.map List.length) ∧
    ∀ i j : Nat, (cellAt (updateGrid p dt s).grid i j).map Cell.overrideTap =
      (cellAt s.grid i j).map Cell.overrideTap := by
  obtain ⟨hlen, hrow, hcell⟩ := stepFrame_updateGridCells p dt s.grid
  refine ⟨hlen, hrow, fun i j => ?_⟩
  cases hc : cellAt s.grid i j with
  | none =>
    have : cellAt (updateGridCells p dt s.grid) i j = none :=
      cellAt_eq_none_of_shape hrow i j hc
    simp only [updateGrid] at this ⊢
    rw [this]
  | some c =>
    obtain ⟨c', hc', ho, -⟩ := hcell i j c hc
    simp only [updateGrid]
    rw [hc']
    simp [ho]

/-- C5: override precedence — while a cell has `overrideTap = true` (as set by
the manual-moisture input or the Toggle Tap button), no sequence of `step()`
calls, with arbitrary parameter settings per tick, ever changes that cell's
`tapStatus` via the automatic threshold rule (and the override stays set)
until `clearOverride` is invoked. -/
theorem c5_override_blocks_auto_tap (s : SimState) (i j : Nat) (c : Cell)
    (ps : List (SimulationParams × ℚ))
    (hc : cellAt s.grid i j = some c) (hov : c.overrideTap = true) :
    ∃ c', cellAt (runSteps s ps).grid i j = some c' ∧
      c'.overrideTap = true ∧ c'.tapStatus = c.tapStatus := by
  induction ps generalizing s c with
  | nil => exact ⟨c, hc, hov, rfl⟩
  | cons pq ps ih =>
    simp only [runSteps, List.foldl_cons]
    obtain ⟨-, -, hcell⟩ := stepFrame_updateGridCells pq.1 pq.2 s.grid
    obtain ⟨c', hc', ho, ht⟩ := hcell i j c hc
    obtain ⟨c'', hc'', ho'', ht''⟩ := ih (updateGrid pq.1 pq.2 s) c' hc' (ho.trans hov)
    exact ⟨c'', hc'', ho'', ht''.trans (ht hov)⟩

/-- Witness for `c5_override_blocks_auto_tap`: a 1×1 grid whose cell is
overridden with the tap on, moisture `1/2` below the threshold `3/5` — one
step leaves the tap on (and overridden). -/
theorem c5_override_blocks_auto_tap_witness :
    cellAt [[⟨1/2, true, true⟩]] 0 0 = some ⟨1/2, true, true⟩ ∧
    (⟨1/2, true, true⟩ : Cell).overrideTap = true ∧
    ∃ c', cellAt (runSteps ⟨[[⟨1/2, true, true⟩]], 0⟩ [(⟨0, 1/20, 1/10, 3/5⟩, 1)]).grid 0 0 =
        some c' ∧ c'.overrideTap = true ∧ c'.tapStatus = (⟨1/2, true, true⟩ : Cell).tapStatus :=
  ⟨rfl, rfl, c5_override_blocks_auto_tap ⟨[[⟨1/2, true, true⟩]], 0⟩ 0 0 ⟨1/2, true, true⟩
    [(⟨0, 1/20, 1/10, 3/5⟩, 1)] rfl rfl⟩

end SoilSim

namespace SoilSim

theorem moistureInRange_setCell (g : Grid) (i j : Nat) (c : Cell)
    (h : moistureInRange g) (hc : 0 ≤ c.moisture ∧ c.moisture ≤ 1) :
    moistureInRange (setCell g i j c) := by
  unfold setCell
  split
  · exact h
  · rename_i row hrow
    obtain ⟨hi, hrowEq⟩ := List.getElem?_eq_some.mp hrow
    have hrowMem : row ∈ g := hrowEq ▸ List.getElem_mem hi
    intro row' hrow' c' hc'
    rcases List.mem_or_eq_of_mem_set hrow' with h1 | rfl
    · exact h row' h1 c' hc'
    · rcases List.mem_or_eq_of_mem_set hc' with h2 | rfl
      · exact h row hrowMem c' h2
      · exact hc

theorem moistureInRange_updateCell (p : SimulationParams) (dt : ℚ) (g : Grid) (ij : Nat × Nat)
    (h : moistureInRange g) : moistureInRange (updateCell p dt g ij) := by
  cases hc : cellAt g ij.1 ij.2 with
  | none => simpa only [updateCell, hc] using h
  | some c =>
    simp only [updateCell, hc]
    rw [setCell_setCell]
    exact moistureInRange_setCell g ij.1 ij.2 _ h
      ⟨clampMoisture_nonneg _, clampMoisture_le_one _⟩

theorem moistureInRange_foldl (p : SimulationParams) (dt : ℚ) (l : List (Nat × Nat)) (g : Grid)
    (h : moistureInRange g) : moistureInRange (l.foldl (updateCell p dt) g) := by
  induction l generalizing g with
  | nil => exact h
  | cons ij l ih => exact ih _ (moistureInRange_updateCell p dt g ij h)

theorem moistureInRange_applyOp (s : SimState) (op : SimOp)
    (h : moistureInRange s.grid) : moistureInRange (applyOp s op).grid := by
  cases op with
  | step p dt => exact moistureInRange_foldl p dt _ s.grid h
  | setMoisture i j v =>
    simp only [applyOp]
    cases hc : cellAt s.grid i j with
    | none => simpa only [setCellMoisture, hc] using h
    | some c =>
      simp only [setCellMoisture, hc]
      exact moistureInRange_setCell _ i j _ h
        ⟨le_min (by norm_num) (le_max_left 0 v), min_le_left 1 _⟩
  | toggle i j =>
    simp only [applyOp]
    cases hc : cellAt s.grid i j with
    | none => simpa only [toggleTap, hc] using h
    | some c =>
      simp only [toggleTap, hc]
      obtain ⟨row, hrow, hcm⟩ := mem_of_cellAt s.grid i j c hc
      exact moistureInRange_setCell _ i j _ h (h row hrow c hcm)
  | clear i j =>
    simp only [applyOp]
    cases hc : cellAt s.grid i j with
    | none => simpa only [clearOverride, hc] using h
    | some c =>
      simp only [clearOverride, hc]
      obtain ⟨row, hrow, hcm⟩ := mem_of_cellAt s.grid i j c hc
      exact moistureInRange_setCell _ i j _ h (h row hrow c hcm)

/-- C2: the clamping invariant — starting from any grid whose moistures all
lie in `[0,1]`, after any finite sequence of `step()` (`updateGrid`), manual
moisture writes, tap toggles and override clears, every cell's moisture is
still in `[0,1]`. -/
theorem c2_moisture_always_clamped (s : SimState) (ops : List SimOp)
    (h : moistureInRange s.grid) : moistureInRange (applyOps s ops).grid := by
  induction ops generalizing s with
  | nil => exact h
  | cons op ops ih => exact ih (applyOp s op) (moistureInRange_applyOp s op h)

/-- Witness for `c2_moisture_always_clamped`: a 1×1 grid through a step, an
out-of-range manual write, a toggle and a clear. -/
theorem c2_moisture_always_clamped_witness :
    moistureInRange [[mkCell 0]] ∧
    moistureInRange (applyOps ⟨[[mkCell 0]], 0⟩
      [.step ⟨0, 0, 0, 0⟩ 1, .setMoisture 0 0 2, .toggle 0 0, .clear 0 0]).grid :=
  ⟨by simp [moistureInRange, mkCell],
   c2_moisture_always_clamped ⟨[[mkCell 0]], 0⟩
     [.step ⟨0, 0, 0, 0⟩ 1, .setMoisture 0 0 2, .toggle 0 0, .clear 0 0]
     (by simp [moistureInRange, mkCell])⟩

end SoilSim

namespace SoilSim

theorem isSome_cellAt_iff (g : Grid) (N : Nat) (hlen : g.length = N)
    (hrows : ∀ row ∈ g, row.length = N) (a b : Nat) :
    (cellAt g a b).isSome = true ↔ (a < N ∧ b < N) := by
  unfold cellAt
  cases hg : g[a]? with
  | none =>
    have ha : ¬ a < N := by
      rw [List.getElem?_eq_none_iff] at hg; omega
    simp [ha]
  | some row =>
    obtain ⟨ha, hrowEq⟩ := List.getElem?_eq_some.mp hg
    have hrl : row.length = N := hrows row (hrowEq ▸ List.getElem_mem ha)
    have ha' : a < N := by omega
    simp only [Option.some_bind, ha', true_and]
    rw [Option.isSome_iff_ne_none, ne_eq, List.getElem?_eq_none_iff]
    omega

theorem length_filterMap_id_cons (o : Option Cell) (l : List (Option Cell)) :
    (List.filterMap id (o :: l)).length =
      (if o.isSome then 1 else 0) + (List.filterMap id l).length := by
  cases o <;> simp [List.filterMap_cons, Nat.add_comm]

/-- C8: boundary asymmetry — in an `N × N` grid with `N ≥ 3`, the diffusion
sum of a corner cell ranges over exactly 2 neighbors, of an edge (non-corner)
cell over exactly 3, and of an interior cell over exactly 4; missing
neighbors are simply filtered out (no wraparound, no mirroring).  This holds
for any rectangular `N × N` grid, hence for the grid at any point of any
tick (the update preserves the shape). -/
theorem c8_neighbor_counts (g : Grid) (N i j : Nat) (hN : 3 ≤ N) (hlen : g.length = N)
    (hrows : ∀ row ∈ g, row.length = N) (hi : i < N) (hj : j < N) :
    (neighborList g i j).length =
      if (i = 0 ∨ i = N - 1) ∧ (j = 0 ∨ j = N - 1) then 2
      else if i = 0 ∨ i = N - 1 ∨ j = 0 ∨ j = N - 1 then 3
      else 4 := by
  have e1 : (if i = 0 then (none : Option Cell) else cellAt g (i - 1) j).isSome =
      decide (¬ i = 0) := by
    by_cases h0 : i = 0
    · simp [h0]
    · have hs : (cellAt g (i - 1) j).isSome = true := by
        rw [isSome_cellAt_iff g N hlen hrows]; omega
      simp [h0, hs]
  have e2 : (cellAt g (i + 1) j).isSome = decide (¬ i = N - 1) := by
    by_cases hN' : i = N - 1
    · have hs : ¬ (cellAt g (i + 1) j).isSome = true := by
        rw [isSome_cellAt_iff g N hlen hrows]; omega
      rw [Option.not_isSome_iff_eq_none] at hs
      rw [hs]
      simp [hN']
    · have hs : (cellAt g (i + 1) j).isSome = true := by
        rw [isSome_cellAt_iff g N hlen hrows]; omega
      simp [hN', hs]
  have e3 : (if j = 0 then (none : Option Cell) else cellAt g i (j - 1)).isSome =
      decide (¬ j = 0) := by
    by_cases h0 : j = 0
    · simp [h0]
    · have hs : (cellAt g i (j - 1)).isSome = true := by
        rw [isSome_cellAt_iff g N hlen hrows]; omega
      simp [h0, hs]
  have e4 : (cellAt g i (j + 1)).isSome = decide (¬ j = N - 1) := by
    by_cases hN' : j = N - 1
    · have hs : ¬ (cellAt g i (j + 1)).isSome = true := by
        rw [isSome_cellAt_iff g N hlen hrows]; omega
      rw [Option.not_isSome_iff_eq_none] at hs
      rw [hs]
      simp [hN']
    · have hs : (cellAt g i (j + 1)).isSome = true := by
        rw [isSome_cellAt_iff g N hlen hrows]; omega
      simp [hN', hs]
  rw [neighborList, length_filterMap_id_cons, length_filterMap_id_cons,
    length_filterMap_id_cons, length_filterMap_id_cons]
  rw [e1, e2, e3, e4]
  simp only [List.filterMap_nil, List.length_nil, decide_eq_true_eq]
  split_ifs <;> omega

/-- Witness for `c8_neighbor_counts`: the corner `(0,0)` of a uniform 3×3
grid has exactly 2 neighbors. -/
theorem c8_neighbor_counts_witness :
    3 ≤ 3 ∧ (initializeGrid 3 3 50).length = 3 ∧
    (∀ row ∈ initializeGrid 3 3 50, row.length = 3) ∧ 0 < 3 ∧
    (neighborList (initializeGrid 3 3 50) 0 0).length =
      if ((0 : Nat) = 0 ∨ (0 : Nat) = 3 - 1) ∧ ((0 : Nat) = 0 ∨ (0 : Nat) = 3 - 1) then 2
      else if (0 : Nat) = 0 ∨ (0 : Nat) = 3 - 1 ∨ (0 : Nat) = 0 ∨ (0 : Nat) = 3 - 1 then 3
      else 4 :=
  ⟨le_refl 3, by simp [initializeGrid], by simp [initializeGrid], Nat.zero_lt_succ 2,
   c8_neighbor_counts (initializeGrid 3 3 50) 3 0 0 (le_refl 3)
     (by simp [initializeGrid]) (by simp [initializeGrid]) (Nat.zero_lt_succ 2)
     (Nat.zero_lt_succ 2)⟩

end SoilSim

namespace SoilSim

theorem lastN_all (k : Nat) (l : List α) (h : l.length ≤ k) : lastN k l = l := by
  unfold lastN
  rw [Nat.sub_eq_zero_of_le h, List.drop_zero]

theorem length_lastN_le (k : Nat) (l : List α) : (lastN k l).length ≤ k := by
  unfold lastN
  rw [List.length_drop]
  omega

theorem lastN_append_left (k : Nat) (pre m : List α) (h : k ≤ m.length) :
    lastN k (pre ++ m) = lastN k m := by
  unfold lastN
  have he : (pre ++ m).length - k = pre.length + (m.length - k) := by
    rw [List.length_append]; omega
  rw [he, List.drop_append]

theorem lastN_lastN_append (k : Nat) (l r : List α) :
    lastN k (lastN k l ++ r) = lastN k (l ++ r) := by
  by_cases h : k ≤ l.length
  · have h2 : k ≤ (lastN k l ++ r).length := by
      rw [List.length_append]
      have : (lastN k l).length = k := by
        unfold lastN; rw [List.length_drop]; omega
      omega
    have h3 : l ++ r = l.take (l.length - k) ++ (lastN k l ++ r) := by
      rw [← List.append_assoc]
      unfold lastN
      rw [List.take_append_drop]
    rw [h3, lastN_append_left k _ _ h2]
  · rw [lastN_all k l (by omega)]

theorem length_recordSample_le (h : List MoistureSample) (t : Nat) (m : ℚ) :
    (recordSample h t m).length ≤ 20 :=
  length_lastN_le 20 _

theorem length_sampleTrace (p : SimulationParams) (dt : ℚ) (i j n : Nat) (s : SimState) :
    (sampleTrace p dt i j n s).length = n := by
  induction n generalizing s with
  | zero => rfl
  | succ n ih => simp [sampleTrace, ih]

theorem observeSteps_snd (p : SimulationParams) (dt : ℚ) (i j n : Nat)
    (s : SimState) (h : List MoistureSample) (hlen : h.length ≤ 20) :
    (observeSteps p dt i j n s h).2 = lastN 20 (h ++ sampleTrace p dt i j n s) := by
  induction n generalizing s h with
  | zero =>
    simp only [observeSteps, sampleTrace, List.append_nil]
    exact (lastN_all 20 h hlen).symm
  | succ n ih =>
    simp only [observeSteps, sampleTrace]
    rw [ih _ _ (length_recordSample_le _ _ _)]
    unfold recordSample
    rw [lastN_lastN_append, List.append_assoc]
    rfl

theorem sampleTrace_times (p : SimulationParams) (dt : ℚ) (i j n : Nat) (s : SimState) :
    (sampleTrace p dt i j n s).map MoistureSample.time =
      (List.range n).map (fun k => s.timeStep + 1 + k) := by
  induction n generalizing s with
  | zero => rfl
  | succ n ih =>
    simp only [sampleTrace, List.map_cons, ih, List.range_succ_eq_map, List.map_map]
    simp only [updateGrid]
    congr 1
    refine List.map_congr_left (fun a _ => ?_)
    simp [Function.comp]
    omega

theorem sampleTrace_pairwise (p : SimulationParams) (dt : ℚ) (i j n : Nat) (s : SimState)
    (m : ℚ) :
    List.Pairwise (fun a b : MoistureSample => a.time < b.time)
      ((⟨s.timeStep, m⟩ : MoistureSample) :: sampleTrace p dt i j n s) := by
  have hmap : (((⟨s.timeStep, m⟩ : MoistureSample) ::
      sampleTrace p dt i j n s).map MoistureSample.time).Pairwise (· < ·) := by
    rw [List.map_cons, sampleTrace_times]
    rw [List.pairwise_cons]
    constructor
    · intro b hb
      obtain ⟨k, -, rfl⟩ := List.mem_map.mp hb
      show s.timeStep < s.timeStep + 1 + k
      omega
    · rw [List.pairwise_map]
      exact (List.pairwise_lt_range n).imp (fun hab => by omega)
  exact List.pairwise_map.mp hmap

end SoilSim

namespace SoilSim

/-- C6: history bounding — observe a cell (which records the selection-time
sample) and run 25 ticks: the resulting `moistureHistory` is exactly the last
20 of the 26 recorded `{tick, moisture}` samples (oldest dropped first), has
length exactly 20, is in strictly increasing tick order, and at no number of
ticks does the history ever exceed 20 entries. -/
theorem c6_history_bounded_after_25_steps (p : SimulationParams) (dt : ℚ) (i j : Nat)
    (s : SimState) :
    (observeSteps p dt i j 25 s (recordSample [] s.timeStep (moistureAt s.grid i j))).2 =
      lastN 20 ((⟨s.timeStep, moistureAt s.grid i j⟩ : MoistureSample) ::
        sampleTrace p dt i j 25 s) ∧
    (observeSteps p dt i j 25 s (recordSample [] s.timeStep (moistureAt s.grid i j))).2.length
      = 20 ∧
    List.Pairwise (fun a b : MoistureSample => a.time < b.time)
      (observeSteps p dt i j 25 s (recordSample [] s.timeStep (moistureAt s.grid i j))).2 ∧
    ∀ n : Nat,
      (observeSteps p dt i j n s (recordSample [] s.timeStep (moistureAt s.grid i j))).2.length
        ≤ 20 := by
  have hrec : recordSample [] s.timeStep (moistureAt s.grid i j) =
      [⟨s.timeStep, moistureAt s.grid i j⟩] := by
    unfold recordSample
    exact lastN_all 20 _ (by simp)
  have hmain :
      (observeSteps p dt i j 25 s (recordSample [] s.timeStep (moistureAt s.grid i j))).2 =
        lastN 20 ((⟨s.timeStep, moistureAt s.grid i j⟩ : MoistureSample) ::
          sampleTrace p dt i j 25 s) := by
    rw [observeSteps_snd p dt i j 25 s _ (length_recordSample_le _ _ _), hrec]
    rfl
  refine ⟨hmain, ?_, ?_, ?_⟩
  · rw [hmain]
    unfold lastN
    rw [List.length_drop, List.length_cons, length_sampleTrace]
  · rw [hmain]
    exact List.Pairwise.sublist (List.drop_sublist _ _)
      (sampleTrace_pairwise p dt i j 25 s _)
  · intro n
    rw [observeSteps_snd p dt i j n s _ (length_recordSample_le _ _ _)]
    exact length_lastN_le 20 _

end SoilSim
